import Mathlib

/-!
Verification development for the `mcp-quickstart` tool-augmented chat loop.

Python strings are modelled as `List Char`; Python values that can appear in
parsed JSON are modelled by the inductive `Json`; Python dictionaries built by
the code with a fixed set of keys are modelled as records with `Option` fields
(`none` = key absent).  Exceptions that the source catches are modelled by
`Option`-valued functions (`none` = the exception path).  External effects
(the model backend, the MCP tool provider) are parameters of the functions
that use them.
-/

/-- Convert a Lean string literal to the `List Char` representation used
throughout this development. -/
def sl (s : String) : List Char := s.data

/-- Python whitespace recognised by `str.strip` (ASCII fragment): space, tab,
newline, carriage return, vertical tab, form feed. -/
def isPySpace (c : Char) : Bool :=
  c == ' ' || c == Char.ofNat 9 || c == Char.ofNat 10 || c == Char.ofNat 13 ||
  c == Char.ofNat 11 || c == Char.ofNat 12

/-- Model of Python `str.strip()`: drop leading and trailing whitespace. -/
def strip (s : List Char) : List Char :=
  ((s.dropWhile isPySpace).reverse.dropWhile isPySpace).reverse

/-- `strHasPre needle hay` is true when `needle` occurs at the start of
`hay` (used to model literal matching). -/
def strHasPre : List Char → List Char → Bool
  | [], _ => true
  | _ :: _, [] => false
  | a :: as, b :: bs => a == b && strHasPre as bs

/-- Find the first occurrence of `needle` in `hay`; on success return the part
of `hay` before the occurrence and the part after it.  This models both
Python's substring test `needle in hay` and the leftmost-match behaviour of
`re.search` on a literal. -/
def splitOnFirst (needle : List Char) : List Char → Option (List Char × List Char)
  | [] => if needle.isEmpty then some ([], []) else none
  | c :: rest =>
    if strHasPre needle (c :: rest) then some ([], (c :: rest).drop needle.length)
    else (splitOnFirst needle rest).map (fun p => (c :: p.1, p.2))

/-- Model of Python's substring containment test `needle in hay`. -/
def hasSubstr (needle hay : List Char) : Bool :=
  (splitOnFirst needle hay).isSome

/-- Model of `re.search(fr"<\x7btag\x7d>(.*?)</\x7btag\x7d>", s, re.DOTALL)`:
the match starts at the first occurrence of `<tag>` that is followed by
`</tag>`, and the non-greedy group is everything up to the first `</tag>`
after it.  `none` models "no match". -/
def findTag (tag s : List Char) : Option (List Char) :=
  match splitOnFirst ('<' :: tag ++ ['>']) s with
  | none => none
  | some (_, rest) =>
    match splitOnFirst ('<' :: '/' :: tag ++ ['>']) rest with
    | none => none
    | some (content, _) => some content

/-- Python values produced by `json.loads`.  Numbers are kept exactly as
`mant * 10 ^ exp10` (the claims never compare numbers, only their
truthiness).  `nan` and `infinity` model the non-standard constants CPython's
decoder accepts. -/
inductive Json where
  | null
  | bool (b : Bool)
  | num (mant : Int) (exp10 : Int)
  | nan
  | infinity (neg : Bool)
  | str (s : List Char)
  | arr (l : List Json)
  | obj (kvs : List (List Char × Json))

/-- Python truthiness of a decoded JSON value: `None`, `False`, zero, the
empty string, the empty list and the empty dict are falsy. -/
def Json.truthy : Json → Bool
  | .null => false
  | .bool b => b
  | .num mant _ => mant != 0
  | .nan => true
  | .infinity _ => true
  | .str s => !s.isEmpty
  | .arr l => !l.isEmpty
  | .obj kvs => !kvs.isEmpty

/-- Look a key up in a decoded JSON object (models Python `dict.get` /
`in` on a dict whose pairs are kept in insertion order with unique keys). -/
def lookupKey (kvs : List (List Char × Json)) (k : List Char) : Option Json :=
  match kvs with
  | [] => none
  | (k', v) :: rest => if k' = k then some v else lookupKey rest k

/-- Insert a key/value pair into an object, overwriting the value of an
existing key in place (CPython dict semantics for duplicate JSON keys). -/
def objUpsert (kvs : List (List Char × Json)) (k : List Char) (v : Json) :
    List (List Char × Json) :=
  match kvs with
  | [] => [(k, v)]
  | (k', v') :: rest =>
    if k' = k then (k', v) :: rest else (k', v') :: objUpsert rest k v

/-- Collapse the raw member list of a JSON object into a dict: later
occurrences of a key overwrite earlier ones, keeping the first position. -/
def dedupePairs (ps : List (List Char × Json)) : List (List Char × Json) :=
  ps.foldl (fun acc kv => objUpsert acc kv.1 kv.2) []

/-- JSON structural whitespace. -/
def isJsonWs (c : Char) : Bool :=
  c == ' ' || c == Char.ofNat 9 || c == Char.ofNat 10 || c == Char.ofNat 13

/-- Drop leading JSON whitespace. -/
def skipWs : List Char → List Char
  | [] => []
  | c :: rest => if isJsonWs c then skipWs rest else c :: rest

/-- Value of a hexadecimal digit, if the character is one. -/
def hexVal (c : Char) : Option Nat :=
  if c.isDigit then some (c.toNat - 48)
  else if 97 ≤ c.toNat && c.toNat ≤ 102 then some (c.toNat - 87)
  else if 65 ≤ c.toNat && c.toNat ≤ 70 then some (c.toNat - 55)
  else none

/-- Decode the remainder of a JSON string literal (after the opening quote):
returns the decoded characters and the input after the closing quote.
Handles the JSON escapes; unescaped control characters are rejected as in
CPython's strict mode. -/
def parseStr : List Char → Option (List Char × List Char)
  | [] => none
  | c :: rest =>
    if c == Char.ofNat 34 then some ([], rest)
    else if c == Char.ofNat 92 then
      match rest with
      | [] => none
      | e :: rest2 =>
        if e == Char.ofNat 34 then
          (parseStr rest2).map (fun p => (Char.ofNat 34 :: p.1, p.2))
        else if e == Char.ofNat 92 then
          (parseStr rest2).map (fun p => (Char.ofNat 92 :: p.1, p.2))
        else if e == '/' then (parseStr rest2).map (fun p => ('/' :: p.1, p.2))
        else if e == 'b' then
          (parseStr rest2).map (fun p => (Char.ofNat 8 :: p.1, p.2))
        else if e == 'f' then
          (parseStr rest2).map (fun p => (Char.ofNat 12 :: p.1, p.2))
        else if e == 'n' then
          (parseStr rest2).map (fun p => (Char.ofNat 10 :: p.1, p.2))
        else if e == 'r' then
          (parseStr rest2).map (fun p => (Char.ofNat 13 :: p.1, p.2))
        else if e == 't' then
          (parseStr rest2).map (fun p => (Char.ofNat 9 :: p.1, p.2))
        else if e == 'u' then
          match rest2 with
          | h1 :: h2 :: h3 :: h4 :: rest3 =>
            match hexVal h1, hexVal h2, hexVal h3, hexVal h4 with
            | some a, some b, some c2, some d =>
              (parseStr rest3).map
                (fun p => (Char.ofNat (((a * 16 + b) * 16 + c2) * 16 + d) :: p.1, p.2))
            | _, _, _, _ => none
          | _ => none
        else none
    else if c.toNat < 32 then none
    else (parseStr rest).map (fun p => (c :: p.1, p.2))

/-- Numeric value of a digit string. -/
def digitsToNat (ds : List Char) : Nat :=
  ds.foldl (fun a c => a * 10 + (c.toNat - 48)) 0

/-- Parse the integer-part digits of a JSON number: a single `0`, or a
nonzero digit followed by digits (leading zeros are rejected as in JSON). -/
def parseIntDigits (cs : List Char) : Option (List Char × List Char) :=
  match cs with
  | [] => none
  | c :: rest =>
    if c == '0' then some ([c], rest)
    else if c.isDigit then
      some (c :: rest.takeWhile Char.isDigit, rest.dropWhile Char.isDigit)
    else none

/-- Parse a JSON number (optional minus, integer part, optional fraction,
optional exponent) into its exact decimal representation. -/
def parseNum (cs : List Char) : Option (Json × List Char) :=
  let p := match cs with
    | c :: rest => if c == '-' then (true, rest) else (false, cs)
    | [] => (false, cs)
  match parseIntDigits p.2 with
  | none => none
  | some (ints, cs2) =>
    match cs2 with
    | '.' :: afterDot =>
      let fracs := afterDot.takeWhile Char.isDigit
      if fracs.isEmpty then none
      else parseNumExp p.1 ints fracs (afterDot.dropWhile Char.isDigit)
    | _ => parseNumExp p.1 ints [] cs2
where
  parseNumExp (neg : Bool) (ints fracs : List Char) (cs3 : List Char) :
      Option (Json × List Char) :=
    let finish : Int → List Char → Option (Json × List Char) := fun ev cs4 =>
      let mant : Int := Int.ofNat (digitsToNat (ints ++ fracs))
      some (.num (if neg then -mant else mant) (ev - Int.ofNat fracs.length), cs4)
    match cs3 with
    | c :: rest =>
      if c == 'e' || c == 'E' then
        let q := match rest with
          | d :: r2 =>
            if d == '+' then ((1 : Int), r2)
            else if d == '-' then ((-1 : Int), r2)
            else ((1 : Int), rest)
          | [] => ((1 : Int), rest)
        let ds := q.2.takeWhile Char.isDigit
        if ds.isEmpty then none
        else finish (q.1 * Int.ofNat (digitsToNat ds)) (q.2.dropWhile Char.isDigit)
      else finish 0 cs3
    | [] => finish 0 cs3

/-- Consume a literal continuation (e.g. `rue` after `t`). -/
def expectLit (lit cs : List Char) : Option (List Char) :=
  if strHasPre lit cs then some (cs.drop lit.length) else none

mutual

/-- Fuel-based recursive-descent parser for a single JSON value, modelling
CPython's `json` decoder (including its `NaN`/`Infinity` extensions).
Leading whitespace is skipped. -/
def parseVal : Nat → List Char → Option (Json × List Char)
  | 0, _ => none
  | fuel + 1, cs =>
    match skipWs cs with
    | [] => none
    | c :: rest =>
      if c == Char.ofNat 34 then
        (parseStr rest).map (fun p => (.str p.1, p.2))
      else if c == '[' then
        match skipWs rest with
        | ']' :: rest2 => some (.arr [], rest2)
        | cs2 => (parseArrElems fuel cs2).map (fun p => (.arr p.1, p.2))
      else if c == Char.ofNat 123 then
        match skipWs rest with
        | d :: rest2 =>
          if d == Char.ofNat 125 then some (.obj [], rest2)
          else
            (parseObjMembers fuel (d :: rest2)).map
              (fun p => (.obj (dedupePairs p.1), p.2))
        | [] => none
      else if c == 't' then (expectLit (sl ("rue")) rest).map (fun r => (.bool true, r))
      else if c == 'f' then (expectLit (sl ("alse")) rest).map (fun r => (.bool false, r))
      else if c == 'n' then (expectLit (sl ("ull")) rest).map (fun r => (.null, r))
      else if c == 'N' then (expectLit (sl ("aN")) rest).map (fun r => (.nan, r))
      else if c == 'I' then
        (expectLit (sl ("nfinity")) rest).map (fun r => (.infinity false, r))
      else if c == '-' && strHasPre (sl ("Infinity")) rest then
        some (.infinity true, rest.drop 8)
      else if c == '-' || c.isDigit then parseNum (c :: rest)
      else none

/-- Parse the comma-separated elements of a non-empty JSON array, up to and
including the closing bracket. -/
def parseArrElems : Nat → List Char → Option (List Json × List Char)
  | 0, _ => none
  | fuel + 1, cs =>
    match parseVal fuel cs with
    | none => none
    | some (v, r) =>
      match skipWs r with
      | ',' :: r2 => (parseArrElems fuel r2).map (fun p => (v :: p.1, p.2))
      | ']' :: r2 => some ([v], r2)
      | _ => none

/-- Parse the comma-separated members of a non-empty JSON object, up to and
including the closing brace. -/
def parseObjMembers : Nat → List Char → Option (List (List Char × Json) × List Char)
  | 0, _ => none
  | fuel + 1, cs =>
    match skipWs cs with
    | c :: r =>
      if c == Char.ofNat 34 then
        match parseStr r with
        | none => none
        | some (k, r2) =>
          match skipWs r2 with
          | ':' :: r3 =>
            match parseVal fuel r3 with
            | none => none
            | some (v, r4) =>
              match skipWs r4 with
              | ',' :: r5 => (parseObjMembers fuel r5).map (fun p => ((k, v) :: p.1, p.2))
              | d :: r5 =>
                if d == Char.ofNat 125 then some ([(k, v)], r5) else none
              | [] => none
          | _ => none
      else none
    | [] => none

end

/-- Model of Python `json.loads`: parse exactly one JSON value, allowing
surrounding whitespace; anything else is a decode error (`none`). -/
def jsonLoads (s : List Char) : Option Json :=
  match parseVal (2 * s.length + 2) s with
  | some (v, rest) => if skipWs rest = [] then some v else none
  | none => none

/-!
Model of `src/clients/llm_interface.py`.
-/

/-- Model of `LLMInterface._parse_llm_response`: locate the first
`<tag>...</tag>` region; for the `tool_call` tag decode the stripped body as
JSON (a decode error, caught in the source, yields `none`); for the
`user_message` tag return the stripped body as a string value; any other tag
falls off the end of the function (`None`).  The Python return type
`str | dict | None` is represented as `Option Json` (a returned string is
`Json.str`). -/
def parseLLMResponse (llm_response tag : List Char) : Option Json :=
  match findTag tag llm_response with
  | none => none
  | some g =>
    let parsed_data := strip g
    if tag = sl ("tool_call") then jsonLoads parsed_data
    else if tag = sl ("user_message") then some (.str parsed_data)
    else none

/-- The dictionary returned by `LLMInterface.process_llm_response`.  The
source only ever sets the keys `tool_call`, `tool_call_data` and
`message_to_user`; `none` models an absent key, and the stored values are
Python values (`tool_call` is set to Python `True`/`False`). -/
structure ProcResult where
  tool_call : Option Json := none
  tool_call_data : Option Json := none
  message_to_user : Option Json := none

/-- The `user_message` half of `process_llm_response`: reached when the
`tool_call` branch did not return.  Mirrors the second `if` block and the
final `return result` (the dict is still empty when nothing matched or the
parsed value was falsy). -/
def processUserBranch (s : List Char) : ProcResult :=
  if hasSubstr (sl ("<user_message>")) s then
    match parseLLMResponse s (sl ("user_message")) with
    | some v =>
      if v.truthy then { tool_call := some (.bool false), message_to_user := some v }
      else {}
    | none => {}
  else {}

/-- Model of `LLMInterface.process_llm_response`: check for the literal
substring `<tool_call>` first; if its parse yields a truthy value, return the
tool-call classification; otherwise fall through to the `user_message`
check; if neither branch fires, return the empty dict. -/
def processLLMResponse (s : List Char) : ProcResult :=
  if hasSubstr (sl ("<tool_call>")) s then
    match parseLLMResponse s (sl ("tool_call")) with
    | some v =>
      if v.truthy then { tool_call := some (.bool true), tool_call_data := some v }
      else processUserBranch s
    | none => processUserBranch s
  else processUserBranch s

/-- A transcript entry role (`"system"`, `"user"` or `"assistant"`). -/
inductive Role where
  | system
  | user
  | assistant
deriving DecidableEq

/-- One entry of `LLMInterface.history`: a `\x7brole, content\x7d` message. -/
structure Entry where
  role : Role
  content : List Char
deriving DecidableEq

/-- Model of `LLMInterface.get_llm_response`.  The backend call is a
parameter: `none` models an exception from the API call, `some choices`
models a response carrying the given list of choice texts.  On success the
assistant's reply is appended to the history and returned; `choices[0]` on an
empty list raises, which the bare `except` catches, so that case — like any
other failure — returns the sentinel `"Error"` with the history unchanged. -/
def getLLMResponse (history : List Entry) (backend : Option (List (List Char))) :
    List Entry × List Char :=
  match backend with
  | some (content :: _) => (history ++ [⟨.assistant, content⟩], content)
  | some [] => (history, sl ("Error"))
  | none => (history, sl ("Error"))

/-!
Model of the chat-turn body of `start_chat` in `src/clients/client.py`.
-/

/-- Model of `str.lower` for the exit-keyword comparison. -/
def lowerStr (s : List Char) : List Char := s.map Char.toLower

/-- The exit test `user_query.lower() in ("exit", "quit")`. -/
def isExitQuery (q : List Char) : Bool :=
  lowerStr q = sl ("exit") || lowerStr q = sl ("quit")

/-- Observable events of one chat turn: a model query, a tool dispatch
(`session.call_tool` with the values of the `tool` and `arguments` keys), or
a message printed to the user. -/
inductive Event where
  | query
  | dispatch (name : Option Json) (args : Option Json)
  | display (msg : Json)

/-- The list Python's `for` loop iterates over for a given value of
`tool_call_data`: a list yields its elements, a string its characters, a
dict its keys; `None`, booleans and numbers are not iterable (`none` models
the uncaught `TypeError`). -/
def iterElems : Json → Option (List Json)
  | .arr l => some l
  | .str s => some (s.map (fun c => .str [c]))
  | .obj kvs => some (kvs.map (fun kv => .str kv.1))
  | _ => none

/-- Dispatch every requested invocation in order: each element must be a
dict (`tool_call.get("tool")` on anything else raises, `none`); the tool
provider `ct` returns the text of the first content element of the result.
Returns the (name, arguments) pairs and the collected result texts. -/
def dispatchElems (ct : Option Json → Option Json → List Char) (elems : List Json) :
    Option (List ((Option Json × Option Json) × List Char)) :=
  elems.mapM (fun e =>
    match e with
    | .obj kvs =>
      let n := lookupKey kvs (sl ("tool"))
      let a := lookupKey kvs (sl ("arguments"))
      some ((n, a), ct n a)
    | _ => none)

/-- Simplified Python `repr` of a string (no escaping; the claims never
inspect this text). -/
def pyReprStr (s : List Char) : List Char :=
  Char.ofNat 39 :: s ++ [Char.ofNat 39]

/-- The content of the system entry recording tool results: the f-string
`f"\x7btool_results=\x7d"`, i.e. `tool_results=` followed by the list repr. -/
def toolResultsEntry (results : List (List Char)) : List Char :=
  sl ("tool_results=[") ++
    (List.intercalate (sl (", ")) (results.map pyReprStr)) ++ [']']

/-- The display step shared by both paths of the loop body:
`user_message = parsed_response.get("message_to_user")` followed by a
truthiness-guarded `print`. -/
def displayEvents (p : ProcResult) : List Event :=
  match p.message_to_user with
  | some v => if v.truthy then [.display v] else []
  | none => []

/-- The final history and observable events of one chat turn. -/
structure TurnOut where
  history : List Entry
  events : List Event

/-- Model of one iteration of the `while True` loop in `start_chat`.  The
environment is explicit: `b1` and `b2` are the backend outcomes of the at
most two model queries of a turn, and `ct` is the tool provider.  An exit
keyword breaks out before anything happens; otherwise the user query is
appended, the model is queried and the reply parsed; a truthy `tool_call`
classification dispatches every requested invocation in order, records one
system entry with all results, and re-queries exactly once; finally the
(possibly re-parsed) reply's `message_to_user` is displayed when truthy.
`none` models an uncaught exception during dispatch (not-iterable data or a
non-dict element), which aborts the session. -/
def chatTurn (user_query : List Char) (hist : List Entry)
    (b1 b2 : Option (List (List Char)))
    (ct : Option Json → Option Json → List Char) : Option TurnOut :=
  if isExitQuery user_query then some ⟨hist, []⟩
  else
    let hist1 := hist ++ [⟨.user, user_query⟩]
    let s1 := getLLMResponse hist1 b1
    let p1 := processLLMResponse s1.2
    if ((p1.tool_call.getD .null).truthy) then
      let tcd := p1.tool_call_data.getD (.arr [])
      match iterElems tcd with
      | none => none
      | some elems =>
        match dispatchElems ct elems with
        | none => none
        | some calls =>
          let hist3 := s1.1 ++ [⟨.system, toolResultsEntry (calls.map (·.2))⟩]
          let s2 := getLLMResponse hist3 b2
          let p2 := processLLMResponse s2.2
          some ⟨s2.1,
            .query :: (calls.map (fun c => .dispatch c.1.1 c.1.2)) ++
              .query :: displayEvents p2⟩
    else
      some ⟨s1.1, .query :: displayEvents p1⟩

/-- The reply text `get_llm_response` produces for a given backend outcome
(it does not depend on the history). -/
def replyText (b : Option (List (List Char))) : List Char :=
  match b with
  | some (content :: _) => content
  | _ => sl ("Error")

/-!
Model of `HelperFunctions.format_tool` in `src/utils/helpers.py`.
-/

/-- One value of the rebuilt `properties` mapping:
`\x7b"type": ..., "description": ...\x7d` with the description key optional. -/
structure PropDef where
  type : Json
  description : Option Json := none

/-- The `parameters` dict built by `format_tool`; every key is optional. -/
structure ToolParams where
  type : Option Json := none
  properties : Option (List (List Char × PropDef)) := none
  required : Option Json := none

/-- The successful result dict of `format_tool`:
`\x7bname, description, parameters\x7d`. -/
structure FormattedTool where
  name : List Char
  description : List Char
  parameters : ToolParams

/-- Render a rebuilt property back to a JSON object (for stating the
round-trip property). -/
def propDefToJson (p : PropDef) : Json :=
  .obj ([(sl ("type"), p.type)] ++
    (match p.description with
     | some d => [(sl ("description"), d)]
     | none => []))

/-- Model of `HelperFunctions.format_tool`.  Truthiness-guarded optional
fields are copied into `parameters`; each property is rebuilt with
`prop_info.get("type", "string")` and an optional `description`.  Any
internal exception — `.get` on a non-dict schema, `.items()` on a non-dict
`properties` value, `.get` on a non-dict property — is caught by the
source's `except`, which returns the empty dict, modelled as `none`. -/
def format_tool (tool_name tool_description : List Char) (input_schema : Json) :
    Option FormattedTool :=
  match input_schema with
  | .obj kvs =>
    let p0 : ToolParams := {}
    let p1 := match lookupKey kvs (sl ("type")) with
      | some v => if v.truthy then { p0 with type := some v } else p0
      | none => p0
    let propsStep : Option (Option (List (List Char × PropDef))) :=
      match lookupKey kvs (sl ("properties")) with
      | some v =>
        if v.truthy then
          match v with
          | .obj props =>
            match props.mapM (fun pr =>
              match pr.2 with
              | .obj pkvs =>
                some (pr.1,
                  ({ type := (lookupKey pkvs (sl ("type"))).getD (.str (sl ("string"))),
                     description := lookupKey pkvs (sl ("description")) } : PropDef))
              | _ => none) with
            | some ps => some (some ps)
            | none => none
          | _ => none
        else some none
      | none => some none
    match propsStep with
    | none => none
    | some propsOpt =>
      let p2 := match propsOpt with
        | some ps => { p1 with properties := some ps }
        | none => p1
      let p3 := match lookupKey kvs (sl ("required")) with
        | some v => if v.truthy then { p2 with required := some v } else p2
        | none => p2
      some { name := tool_name, description := tool_description, parameters := p3 }
  | _ => none

/-- The assistant entry `get_llm_response` appends for a given backend
outcome (empty when the call fails). -/
def histDelta (b : Option (List (List Char))) : List Entry :=
  match b with
  | some (content :: _) => [⟨.assistant, content⟩]
  | _ => []

/-- Recognise the query events of a turn trace. -/
def isQueryEv : Event → Bool
  | .query => true
  | _ => false

/-!
Helper lemmas.
-/

lemma openToolEq : ('<' :: sl ("tool_call") ++ ['>']) = sl ("<tool_call>") := rfl

lemma openUserEq : ('<' :: sl ("user_message") ++ ['>']) = sl ("<user_message>") := rfl

lemma findTag_hasSubstr {tag s g : List Char} (h : findTag tag s = some g) :
    hasSubstr ('<' :: tag ++ ['>']) s = true := by
  unfold findTag at h
  cases h1 : splitOnFirst ('<' :: tag ++ ['>']) s with
  | none => rw [h1] at h; exact absurd h (by simp)
  | some p => simp only [hasSubstr]; rw [h1]; rfl

lemma parse_tool_eq (s : List Char) :
    parseLLMResponse s (sl ("tool_call")) =
      (findTag (sl ("tool_call")) s).bind (fun g => jsonLoads (strip g)) := by
  unfold parseLLMResponse
  cases h : findTag (sl ("tool_call")) s with
  | none => rfl
  | some g => rfl

lemma parse_user_eq (s : List Char) :
    parseLLMResponse s (sl ("user_message")) =
      (findTag (sl ("user_message")) s).map (fun g => Json.str (strip g)) := by
  unfold parseLLMResponse
  cases h : findTag (sl ("user_message")) s with
  | none => rfl
  | some g => rfl

lemma process_tool_some {s : List Char} {v : Json}
    (hs : hasSubstr (sl ("<tool_call>")) s = true)
    (hp : parseLLMResponse s (sl ("tool_call")) = some v)
    (ht : v.truthy = true) :
    processLLMResponse s =
      { tool_call := some (.bool true), tool_call_data := some v } := by
  simp [processLLMResponse, hs, hp, ht]

lemma process_no_tool {s : List Char}
    (hs : hasSubstr (sl ("<tool_call>")) s = false) :
    processLLMResponse s = processUserBranch s := by
  simp [processLLMResponse, hs]

lemma process_tool_parse_none {s : List Char}
    (hp : parseLLMResponse s (sl ("tool_call")) = none) :
    processLLMResponse s = processUserBranch s := by
  cases hs : hasSubstr (sl ("<tool_call>")) s <;> simp [processLLMResponse, hs, hp]

lemma process_tool_falsy {s : List Char} {v : Json}
    (hp : parseLLMResponse s (sl ("tool_call")) = some v)
    (ht : v.truthy = false) :
    processLLMResponse s = processUserBranch s := by
  cases hs : hasSubstr (sl ("<tool_call>")) s <;> simp [processLLMResponse, hs, hp, ht]

lemma userBranch_no_tag {s : List Char}
    (h : hasSubstr (sl ("<user_message>")) s = false) :
    processUserBranch s = {} := by
  simp [processUserBranch, h]

lemma userBranch_nonempty {s g : List Char}
    (hf : findTag (sl ("user_message")) s = some g) (hne : strip g ≠ []) :
    processUserBranch s =
      { tool_call := some (.bool false), message_to_user := some (.str (strip g)) } := by
  have hs : hasSubstr (sl ("<user_message>")) s = true :=
    openUserEq ▸ findTag_hasSubstr hf
  have hp : parseLLMResponse s (sl ("user_message")) = some (.str (strip g)) := by
    rw [parse_user_eq, hf]; rfl
  have ht : (Json.str (strip g)).truthy = true := by
    simp [Json.truthy, List.isEmpty_eq_true, hne]
  simp [processUserBranch, hs, hp, ht]

lemma userBranch_empty {s g : List Char}
    (hf : findTag (sl ("user_message")) s = some g) (he : strip g = []) :
    processUserBranch s = {} := by
  have hs : hasSubstr (sl ("<user_message>")) s = true :=
    openUserEq ▸ findTag_hasSubstr hf
  have hp : parseLLMResponse s (sl ("user_message")) = some (.str (strip g)) := by
    rw [parse_user_eq, hf]; rfl
  have ht : (Json.str (strip g)).truthy = false := by
    simp [Json.truthy, List.isEmpty_eq_true, he]
  simp [processUserBranch, hs, hp, ht]

lemma userBranch_shape (s : List Char) :
    processUserBranch s = {} ∨
      ∃ t, t ≠ [] ∧ processUserBranch s =
        { tool_call := some (.bool false), message_to_user := some (.str t) } := by
  cases hs : hasSubstr (sl ("<user_message>")) s with
  | false => exact Or.inl (userBranch_no_tag hs)
  | true =>
    cases hf : findTag (sl ("user_message")) s with
    | none =>
      have hp : parseLLMResponse s (sl ("user_message")) = none := by
        rw [parse_user_eq, hf]; rfl
      exact Or.inl (by simp [processUserBranch, hs, hp])
    | some g =>
      by_cases hg : strip g = []
      · exact Or.inl (userBranch_empty hf hg)
      · exact Or.inr ⟨strip g, hg, userBranch_nonempty hf hg⟩

/-!
Claim theorems.
-/

/-- C1 (counterexample): `"<tool_call>[]</tool_call>"` satisfies every
hypothesis of the claim — the block is well formed, its body decodes as the
(empty) JSON array, and no `<user_message>` block is present — yet
`process_llm_response` returns the empty dict rather than a tool-call
classification, because the decoded empty list is falsy. -/
theorem c1_empty_array_counterexample :
    findTag (sl ("tool_call")) (sl ("<tool_call>[]</tool_call>")) = some (sl ("[]")) ∧
    jsonLoads (strip (sl ("[]"))) = some (.arr []) ∧
    hasSubstr (sl ("<user_message>")) (sl ("<tool_call>[]</tool_call>")) = false ∧
    processLLMResponse (sl ("<tool_call>[]</tool_call>")) = {} ∧
    (processLLMResponse (sl ("<tool_call>[]</tool_call>"))).tool_call ≠
      some (.bool true) := by
  refine ⟨rfl, rfl, rfl, rfl, ?_⟩
  intro h
  have h2 : (none : Option Json) = some (Json.bool true) := h
  exact Option.noConfusion h2

/-- C1 (amended): for a reply with a well-formed `<tool_call>` block whose
stripped body decodes as a JSON array and with no `<user_message>` block, a
non-empty decoded array yields the tool-call classification carrying the
array exactly, while an empty decoded array fails the truthiness guard and
yields the empty classification instead. -/
theorem c1_tool_call_array (s g : List Char) (xs : List Json)
    (hf : findTag (sl ("tool_call")) s = some g)
    (hl : jsonLoads (strip g) = some (.arr xs))
    (hu : hasSubstr (sl ("<user_message>")) s = false) :
    (xs ≠ [] → processLLMResponse s =
      { tool_call := some (.bool true), tool_call_data := some (.arr xs) }) ∧
    (xs = [] → processLLMResponse s = {}) := by
  have hs : hasSubstr (sl ("<tool_call>")) s = true :=
    openToolEq ▸ findTag_hasSubstr hf
  have hp : parseLLMResponse s (sl ("tool_call")) = some (.arr xs) := by
    rw [parse_tool_eq, hf]; exact hl
  constructor
  · intro hne
    exact process_tool_some hs hp (by simp [Json.truthy, List.isEmpty_eq_true, hne])
  · intro he
    subst he
    rw [process_tool_falsy hp rfl, userBranch_no_tag hu]

/-- C1 (witness): a concrete non-empty array goes through as stated. -/
theorem c1_tool_call_array_witness :
    findTag (sl ("tool_call")) (sl ("<tool_call>[\x22x\x22]</tool_call>")) =
      some (sl ("[\x22x\x22]")) ∧
    jsonLoads (strip (sl ("[\x22x\x22]"))) = some (.arr [.str (sl ("x"))]) ∧
    hasSubstr (sl ("<user_message>")) (sl ("<tool_call>[\x22x\x22]</tool_call>")) = false ∧
    processLLMResponse (sl ("<tool_call>[\x22x\x22]</tool_call>")) =
      { tool_call := some (.bool true), tool_call_data := some (.arr [.str (sl ("x"))]) } :=
  ⟨rfl, rfl, rfl,
    (c1_tool_call_array (sl ("<tool_call>[\x22x\x22]</tool_call>")) (sl ("[\x22x\x22]"))
      [.str (sl ("x"))] rfl rfl rfl).1 (List.cons_ne_nil _ _)⟩

/-- C2 (counterexample): with both tags present and the `tool_call` body
decoding successfully to the (falsy) empty array, the code does not stop at
the tool-call branch: it inspects `user_message` and returns a user-message
classification, contradicting the claim that a successful decode always
yields the tool-call classification with `user_message` never inspected. -/
theorem c2_priority_counterexample :
    findTag (sl ("tool_call"))
        (sl ("<tool_call>[]</tool_call><user_message>hi</user_message>")) =
      some (sl ("[]")) ∧
    jsonLoads (strip (sl ("[]"))) = some (.arr []) ∧
    processLLMResponse (sl ("<tool_call>[]</tool_call><user_message>hi</user_message>")) =
      { tool_call := some (.bool false), tool_call_data := none,
        message_to_user := some (.str (sl ("hi"))) } ∧
    (processLLMResponse
        (sl ("<tool_call>[]</tool_call><user_message>hi</user_message>"))).tool_call ≠
      some (.bool true) := by
  refine ⟨rfl, rfl, rfl, ?_⟩
  intro h
  have h2 : some (Json.bool false) = some (Json.bool true) := h
  injection h2 with h3
  injection h3 with h4
  exact Bool.noConfusion h4

/-- C2 (amended): the `tool_call` branch is evaluated first and, whenever
its decode yields a truthy value, the result is the tool-call classification
carrying that value — independently of any `<user_message>` block, which is
therefore never inspected.  A successful decode of a falsy value (e.g. the
empty array) falls through to the `user_message` branch instead. -/
theorem c2_tool_call_priority (s g : List Char) (v : Json)
    (hf : findTag (sl ("tool_call")) s = some g)
    (hl : jsonLoads (strip g) = some v)
    (ht : v.truthy = true) :
    processLLMResponse s =
      { tool_call := some (.bool true), tool_call_data := some v } := by
  have hs : hasSubstr (sl ("<tool_call>")) s = true :=
    openToolEq ▸ findTag_hasSubstr hf
  have hp : parseLLMResponse s (sl ("tool_call")) = some v := by
    rw [parse_tool_eq, hf]; exact hl
  exact process_tool_some hs hp ht

/-- C2 (witness): a truthy tool-call payload wins although a
`<user_message>` block is also present. -/
theorem c2_tool_call_priority_witness :
    findTag (sl ("tool_call"))
        (sl ("<tool_call>[\x22x\x22]</tool_call><user_message>hi</user_message>")) =
      some (sl ("[\x22x\x22]")) ∧
    jsonLoads (strip (sl ("[\x22x\x22]"))) = some (.arr [.str (sl ("x"))]) ∧
    (Json.arr [.str (sl ("x"))]).truthy = true ∧
    processLLMResponse
        (sl ("<tool_call>[\x22x\x22]</tool_call><user_message>hi</user_message>")) =
      { tool_call := some (.bool true), tool_call_data := some (.arr [.str (sl ("x"))]) } :=
  ⟨rfl, rfl, rfl,
    c2_tool_call_priority
      (sl ("<tool_call>[\x22x\x22]</tool_call><user_message>hi</user_message>"))
      (sl ("[\x22x\x22]")) (.arr [.str (sl ("x"))]) rfl rfl rfl⟩

/-- C5 (confirmed): a reply with a `<tool_call>` block whose stripped body
fails to decode as JSON, and with no `<user_message>` block to fall back on,
yields the empty classification; in the model every exception path is a
caught `none`, so nothing propagates. -/
theorem c5_invalid_json_empty (s g : List Char)
    (hf : findTag (sl ("tool_call")) s = some g)
    (hl : jsonLoads (strip g) = none)
    (hu : hasSubstr (sl ("<user_message>")) s = false) :
    processLLMResponse s = {} := by
  have hp : parseLLMResponse s (sl ("tool_call")) = none := by
    rw [parse_tool_eq, hf]; exact hl
  rw [process_tool_parse_none hp, userBranch_no_tag hu]

/-- C5 (witness): a concrete undecodable body yields the empty dict. -/
theorem c5_invalid_json_empty_witness :
    findTag (sl ("tool_call")) (sl ("<tool_call>nope</tool_call>")) =
      some (sl ("nope")) ∧
    jsonLoads (strip (sl ("nope"))) = none ∧
    hasSubstr (sl ("<user_message>")) (sl ("<tool_call>nope</tool_call>")) = false ∧
    processLLMResponse (sl ("<tool_call>nope</tool_call>")) = {} :=
  ⟨rfl, rfl, rfl,
    c5_invalid_json_empty (sl ("<tool_call>nope</tool_call>")) (sl ("nope")) rfl rfl rfl⟩

/-- C6 (counterexample): for `"<user_message></user_message>"` the parse of
the tag does return the empty string, but `process_llm_response` does not
pass it through as the user-message result: the empty string is falsy, so
the returned classification is the empty dict with no `message_to_user`
key at all. -/
theorem c6_empty_body_counterexample :
    hasSubstr (sl ("<tool_call>")) (sl ("<user_message></user_message>")) = false ∧
    findTag (sl ("user_message")) (sl ("<user_message></user_message>")) = some [] ∧
    processLLMResponse (sl ("<user_message></user_message>")) = {} ∧
    (processLLMResponse (sl ("<user_message></user_message>"))).message_to_user ≠
      some (.str []) := by
  refine ⟨rfl, rfl, rfl, ?_⟩
  intro h
  have h2 : (none : Option Json) = some (Json.str []) := h
  exact Option.noConfusion h2

/-- C6 (amended): for a reply containing only a well-formed `<user_message>`
block, the tag parse yields the trimmed inner text verbatim; when that
trimmed text is non-empty, `process_llm_response` returns it as the
user-message classification, but when the tag body is empty (or all
whitespace) the truthiness guard drops it and the result is the empty
classification, not a user-message result. -/
theorem c6_user_message_trimmed (s g : List Char)
    (htc : hasSubstr (sl ("<tool_call>")) s = false)
    (hf : findTag (sl ("user_message")) s = some g) :
    parseLLMResponse s (sl ("user_message")) = some (.str (strip g)) ∧
    (strip g ≠ [] → processLLMResponse s =
      { tool_call := some (.bool false), message_to_user := some (.str (strip g)) }) ∧
    (strip g = [] → processLLMResponse s = {}) := by
  refine ⟨by rw [parse_user_eq, hf]; rfl, ?_, ?_⟩
  · intro hne
    rw [process_no_tool htc, userBranch_nonempty hf hne]
  · intro he
    rw [process_no_tool htc, userBranch_empty hf he]

/-- C6 (witness): surrounding whitespace is trimmed and the non-empty text
passes through verbatim. -/
theorem c6_user_message_trimmed_witness :
    hasSubstr (sl ("<tool_call>")) (sl ("<user_message>  hi there </user_message>")) = false ∧
    findTag (sl ("user_message")) (sl ("<user_message>  hi there </user_message>")) =
      some (sl ("  hi there ")) ∧
    processLLMResponse (sl ("<user_message>  hi there </user_message>")) =
      { tool_call := some (.bool false), message_to_user := some (.str (sl ("hi there"))) } :=
  ⟨rfl, rfl,
    (c6_user_message_trimmed (sl ("<user_message>  hi there </user_message>"))
      (sl ("  hi there ")) rfl rfl).2.1 (by decide)⟩

/-- C10 (confirmed): every result of `process_llm_response` has exactly one
of three shapes — the empty dict; a tool-call classification whose payload
is truthy (in particular non-empty); or a user-message classification whose
text is a non-empty string.  No result carries both `tool_call_data` and
`message_to_user`. -/
theorem c10_result_shapes (s : List Char) :
    processLLMResponse s = {} ∨
    (∃ d, d.truthy = true ∧ processLLMResponse s =
      { tool_call := some (.bool true), tool_call_data := some d }) ∨
    (∃ t, t ≠ [] ∧ processLLMResponse s =
      { tool_call := some (.bool false), message_to_user := some (.str t) }) := by
  have shapes : processLLMResponse s = processUserBranch s →
      processLLMResponse s = {} ∨
      (∃ d, d.truthy = true ∧ processLLMResponse s =
        { tool_call := some (.bool true), tool_call_data := some d }) ∨
      (∃ t, t ≠ [] ∧ processLLMResponse s =
        { tool_call := some (.bool false), message_to_user := some (.str t) }) := by
    intro h
    rcases userBranch_shape s with h0 | ⟨t, ht, h1⟩
    · exact Or.inl (h.trans h0)
    · exact Or.inr (Or.inr ⟨t, ht, h.trans h1⟩)
  cases hs : hasSubstr (sl ("<tool_call>")) s with
  | false => exact shapes (process_no_tool hs)
  | true =>
    cases hp : parseLLMResponse s (sl ("tool_call")) with
    | none => exact shapes (process_tool_parse_none hp)
    | some v =>
      cases ht : v.truthy with
      | false => exact shapes (process_tool_falsy hp ht)
      | true => exact Or.inr (Or.inl ⟨v, ht, process_tool_some hs hp ht⟩)

/-- C4 (confirmed): when the backend call succeeds with a non-empty choice
list, `get_llm_response` appends the assistant's raw reply to the history
exactly once and returns it; on any failure — a raised exception from the
call, or an empty choice list making `choices[0]` raise — it returns the
sentinel `"Error"` and leaves the history unchanged. -/
theorem c4_get_llm_response_history (history : List Entry)
    (backend : Option (List (List Char))) :
    (∀ content rest, backend = some (content :: rest) →
      getLLMResponse history backend =
        (history ++ [⟨.assistant, content⟩], content)) ∧
    (backend = none ∨ backend = some [] →
      getLLMResponse history backend = (history, sl ("Error"))) := by
  constructor
  · intro content rest h
    subst h
    rfl
  · rintro (h | h) <;> subst h <;> rfl

/-- C4 (witness): a successful call appends one assistant entry and returns
its text; a failed call returns `"Error"` with the history untouched. -/
theorem c4_get_llm_response_history_witness :
    getLLMResponse [⟨.user, sl ("q")⟩] (some [sl ("hi")]) =
      ([⟨.user, sl ("q")⟩, ⟨.assistant, sl ("hi")⟩], sl ("hi")) ∧
    getLLMResponse [⟨.user, sl ("q")⟩] none = ([⟨.user, sl ("q")⟩], sl ("Error")) :=
  ⟨(c4_get_llm_response_history [⟨.user, sl ("q")⟩] (some [sl ("hi")])).1
      (sl ("hi")) [] rfl,
   (c4_get_llm_response_history [⟨.user, sl ("q")⟩] none).2 (Or.inl rfl)⟩

/-- C8 (confirmed): formatting a tool whose schema has properties
`\x7b"city": \x7b"type": "string", "description": "City name"\x7d\x7d` and
required `["city"]` produces a descriptor whose rebuilt properties render
back to exactly the input mapping and whose required list is the input list
unchanged. -/
theorem c8_format_tool_round_trip :
    (format_tool (sl ("get_weather")) (sl ("Get weather for a city"))
        (Json.obj
          [(sl ("properties"), Json.obj [(sl ("city"), Json.obj
              [(sl ("type"), Json.str (sl ("string"))),
               (sl ("description"), Json.str (sl ("City name")))])]),
           (sl ("required"), Json.arr [Json.str (sl ("city"))])])).map
      (fun ft =>
        ((ft.parameters.properties.getD []).map (fun p => (p.1, propDefToJson p.2)),
         ft.parameters.required)) =
    some ([(sl ("city"), Json.obj
             [(sl ("type"), Json.str (sl ("string"))),
              (sl ("description"), Json.str (sl ("City name")))])],
          some (Json.arr [Json.str (sl ("city"))])) := rfl

/-- Evaluation of `format_tool` on a schema whose `properties` holds a
single property object (the property's own keys left symbolic). -/
lemma format_tool_single_prop (n d pn : List Char) (pkvs : List (List Char × Json)) :
    format_tool n d (Json.obj [(sl ("properties"), Json.obj [(pn, Json.obj pkvs)])]) =
      some ⟨n, d,
        { properties := some [(pn,
            { type := (lookupKey pkvs (sl ("type"))).getD (Json.str (sl ("string"))),
              description := lookupKey pkvs (sl ("description")) })] }⟩ := rfl

/-- C9 (confirmed): `format_tool` is total in the model — every exception
path inside the source is caught and yields the empty dict (`none`).  All
optional schema fields may be missing (an empty schema object formats to a
descriptor with empty parameters); a property without a `type` key defaults
to `"string"`; and an internal failure — a non-dict `properties` value, or a
non-dict schema — yields the empty descriptor rather than propagating. -/
theorem c9_format_tool_safe :
    (∀ n d, format_tool n d (Json.obj []) = some ⟨n, d, {}⟩) ∧
    (∀ n d pn pkvs, lookupKey pkvs (sl ("type")) = none →
      format_tool n d (Json.obj [(sl ("properties"), Json.obj [(pn, Json.obj pkvs)])]) =
        some ⟨n, d,
          { properties := some [(pn,
              { type := Json.str (sl ("string")),
                description := lookupKey pkvs (sl ("description")) })] }⟩) ∧
    (∀ n d, format_tool n d (Json.obj [(sl ("properties"), Json.num 1 0)]) = none) ∧
    (∀ n d, format_tool n d Json.null = none) := by
  refine ⟨fun n d => rfl, ?_, fun n d => rfl, fun n d => rfl⟩
  intro n d pn pkvs h
  rw [format_tool_single_prop, h]
  rfl

/-- C9 (witness): a concrete property without a `type` key gets the
`"string"` default. -/
theorem c9_format_tool_safe_witness :
    lookupKey [(sl ("description"), Json.str (sl ("City name")))] (sl ("type")) = none ∧
    format_tool (sl ("t")) (sl ("d"))
        (Json.obj [(sl ("properties"), Json.obj [(sl ("city"),
          Json.obj [(sl ("description"), Json.str (sl ("City name")))])])]) =
      some ⟨sl ("t"), sl ("d"),
        { properties := some [(sl ("city"),
            { type := Json.str (sl ("string")),
              description := some (Json.str (sl ("City name"))) })] }⟩ :=
  ⟨rfl, c9_format_tool_safe.2.1 (sl ("t")) (sl ("d")) (sl ("city"))
    [(sl ("description"), Json.str (sl ("City name")))] rfl⟩

lemma getLLM_fst (history : List Entry) (b : Option (List (List Char))) :
    (getLLMResponse history b).1 = history ++ histDelta b := by
  cases b with
  | none => simp [getLLMResponse, histDelta]
  | some l => cases l with
    | nil => simp [getLLMResponse, histDelta]
    | cons c r => simp [getLLMResponse, histDelta]

lemma getLLM_snd (history : List Entry) (b : Option (List (List Char))) :
    (getLLMResponse history b).2 = replyText b := by
  cases b with
  | none => rfl
  | some l => cases l with
    | nil => rfl
    | cons c r => rfl

lemma countP_displayEvents (p : ProcResult) :
    (displayEvents p).countP isQueryEv = 0 := by
  cases hm : p.message_to_user with
  | none => simp [displayEvents, hm]
  | some v =>
    cases ht : v.truthy <;> simp [displayEvents, hm, ht, isQueryEv]

lemma countP_dispatch_map (calls : List ((Option Json × Option Json) × List Char)) :
    (calls.map (fun c => Event.dispatch c.1.1 c.1.2)).countP isQueryEv = 0 := by
  rw [List.countP_eq_zero]
  intro a ha
  obtain ⟨c, _, rfl⟩ := List.mem_map.1 ha
  simp [isQueryEv]

/-- C7 (confirmed): the conversation history is append-only.
`get_llm_response` extends the history it is given, and a whole chat turn —
user-input append, model queries, tool-result recording — only ever extends
the incoming history: the old transcript is a prefix of the new one at every
step. -/
theorem c7_history_append_only :
    (∀ (history : List Entry) (b : Option (List (List Char))),
      ∃ tail, (getLLMResponse history b).1 = history ++ tail) ∧
    (∀ (q : List Char) (hist : List Entry) (b1 b2 : Option (List (List Char)))
        (ct : Option Json → Option Json → List Char) (out : TurnOut),
      chatTurn q hist b1 b2 ct = some out → ∃ tail, out.history = hist ++ tail) := by
  constructor
  · intro history b
    exact ⟨histDelta b, getLLM_fst history b⟩
  · intro q hist b1 b2 ct out hout
    simp only [chatTurn] at hout
    split at hout
    · obtain rfl : (⟨hist, []⟩ : TurnOut) = out := by injection hout
      exact ⟨[], by simp⟩
    · split at hout
      · split at hout
        · exact absurd hout (by simp)
        · split at hout
          · exact absurd hout (by simp)
          · rename_i elems heq1 calls heq2
            obtain rfl := Option.some.inj hout
            refine ⟨[⟨.user, q⟩] ++ histDelta b1 ++
              [⟨.system, toolResultsEntry (calls.map (fun x => x.2))⟩] ++
              histDelta b2, ?_⟩
            simp only [getLLM_fst, List.append_assoc]
      · obtain rfl := Option.some.inj hout
        refine ⟨[⟨.user, q⟩] ++ histDelta b1, ?_⟩
        simp only [getLLM_fst, List.append_assoc]

/-- C7 (witness): a concrete non-exit turn extends the incoming history. -/
theorem c7_history_append_only_witness :
    chatTurn (sl ("hi")) [⟨.user, sl ("x")⟩]
        (some [sl ("<user_message>ok</user_message>")]) none (fun _ _ => []) =
      some ⟨[⟨.user, sl ("x")⟩, ⟨.user, sl ("hi")⟩,
             ⟨.assistant, sl ("<user_message>ok</user_message>")⟩],
            [.query, .display (.str (sl ("ok")))]⟩ ∧
    ∃ tail,
      (TurnOut.mk [⟨.user, sl ("x")⟩, ⟨.user, sl ("hi")⟩,
          ⟨.assistant, sl ("<user_message>ok</user_message>")⟩]
        [.query, .display (.str (sl ("ok")))]).history =
      [⟨.user, sl ("x")⟩] ++ tail :=
  ⟨rfl, c7_history_append_only.2 (sl ("hi")) [⟨.user, sl ("x")⟩]
    (some [sl ("<user_message>ok</user_message>")]) none (fun _ _ => []) _ rfl⟩

/-- C3 (confirmed): in a chat turn whose first reply is classified as a
tool-call request and whose dispatch completes, the trace contains exactly
two model queries (one re-query); every dispatch event lies between the two
queries, so the second reply's tool calls — whatever they are — are never
dispatched; and after the second query the only possible event is the
display of the second reply's `message_to_user`, when present and truthy. -/
theorem c3_single_requery (q : List Char) (hist : List Entry)
    (b1 b2 : Option (List (List Char))) (ct : Option Json → Option Json → List Char)
    (out : TurnOut)
    (hex : isExitQuery q = false)
    (hcls : (processLLMResponse (replyText b1)).tool_call = some (.bool true))
    (hout : chatTurn q hist b1 b2 ct = some out) :
    out.events.countP isQueryEv = 2 ∧
    ∃ ds, (∀ e ∈ ds, ∃ n a, e = Event.dispatch n a) ∧
      out.events = .query :: ds ++ .query ::
        displayEvents (processLLMResponse (replyText b2)) := by
  simp only [chatTurn, hex, Bool.false_eq_true, if_false] at hout
  rw [getLLM_snd] at hout
  rw [hcls] at hout
  simp only [Option.getD_some, Json.truthy, if_true] at hout
  split at hout
  · exact absurd hout (by simp)
  · split at hout
    · exact absurd hout (by simp)
    · rename_i elems heq1 calls heq2
      obtain rfl := Option.some.inj hout
      constructor
      · simp [List.countP_cons, List.countP_append, countP_displayEvents,
          countP_dispatch_map, isQueryEv, getLLM_snd]
      · refine ⟨calls.map (fun c => Event.dispatch c.1.1 c.1.2), ?_, ?_⟩
        · intro e he
          obtain ⟨c, _, rfl⟩ := List.mem_map.1 he
          exact ⟨_, _, rfl⟩
        · simp only [getLLM_snd]

/-- C3 (witness): the weather-style scenario — a tool-call first reply, one
dispatched invocation, a single re-query, and only the second reply's
message displayed. -/
theorem c3_single_requery_witness :
    isExitQuery (sl ("hi")) = false ∧
    (processLLMResponse (replyText
        (some [sl ("<tool_call>[\x7b\x22tool\x22: \x22t\x22, \x22arguments\x22: \x7b\x7d\x7d]</tool_call>")]))).tool_call =
      some (.bool true) ∧
    ((TurnOut.mk
        [⟨.user, sl ("hi")⟩,
         ⟨.assistant, sl ("<tool_call>[\x7b\x22tool\x22: \x22t\x22, \x22arguments\x22: \x7b\x7d\x7d]</tool_call>")⟩,
         ⟨.system, toolResultsEntry [sl ("r")]⟩,
         ⟨.assistant, sl ("<user_message>ok</user_message>")⟩]
        [.query, .dispatch (some (.str (sl ("t")))) (some (.obj [])),
         .query, .display (.str (sl ("ok")))]).events.countP isQueryEv = 2 ∧
      ∃ ds : List Event, (∀ e ∈ ds, ∃ n a, e = Event.dispatch n a) ∧
        (TurnOut.mk
          [⟨.user, sl ("hi")⟩,
           ⟨.assistant, sl ("<tool_call>[\x7b\x22tool\x22: \x22t\x22, \x22arguments\x22: \x7b\x7d\x7d]</tool_call>")⟩,
           ⟨.system, toolResultsEntry [sl ("r")]⟩,
           ⟨.assistant, sl ("<user_message>ok</user_message>")⟩]
          [.query, .dispatch (some (.str (sl ("t")))) (some (.obj [])),
           .query, .display (.str (sl ("ok")))]).events =
        .query :: ds ++ .query ::
          displayEvents (processLLMResponse (replyText
            (some [sl ("<user_message>ok</user_message>")])))) :=
  ⟨rfl, rfl,
    c3_single_requery (sl ("hi")) []
      (some [sl ("<tool_call>[\x7b\x22tool\x22: \x22t\x22, \x22arguments\x22: \x7b\x7d\x7d]</tool_call>")])
      (some [sl ("<user_message>ok</user_message>")]) (fun _ _ => sl ("r"))
      (TurnOut.mk
        [⟨.user, sl ("hi")⟩,
         ⟨.assistant, sl ("<tool_call>[\x7b\x22tool\x22: \x22t\x22, \x22arguments\x22: \x7b\x7d\x7d]</tool_call>")⟩,
         ⟨.system, toolResultsEntry [sl ("r")]⟩,
         ⟨.assistant, sl ("<user_message>ok</user_message>")⟩]
        [.query, .dispatch (some (.str (sl ("t")))) (some (.obj [])),
         .query, .display (.str (sl ("ok")))])
      rfl rfl rfl⟩
